import Mathlib

/-!
# Fixed-wing roll-rate controller: `fixedwing_att_control_rate.c`

A shallow embedding of `src/apps/fixedwing_att_control/fixedwing_att_control_rate.c`.

The C file keeps its state in function-local `static` variables; here they are the
record `Statics`, passed in and returned by every invocation.  Everything the file calls
but does not define (the parameter store, the PID library, the clock, the C `float` type
and the handle type `param_t`) is collected in the record `Extern`, over which every
definition and theorem is generic.  `px4` is one concrete `Extern` on which the
definitions can be evaluated.
-/

namespace FixedwingRate

/-! ## Data model -/

/-- The C `struct fw_rate_control_params` (source lines 65-78): ten members, every one of
type `param_t`.  The source uses this one struct type both for the handle set `h` and for
the gain set `p`, so the gain set's members have the handle type, here `H`. -/
structure fw_rate_control_params (H : Type) where
  yawrate_p : H
  yawrate_i : H
  yawrate_d : H
  yawrate_awu : H
  yawrate_lim : H
  attrate_p : H
  attrate_i : H
  attrate_d : H
  attrate_awu : H
  attrate_lim : H
deriving DecidableEq, Repr

/-- The uORB topic `struct vehicle_rates_setpoint_s`, declared outside the translated file.
The source reads only the member `roll`; the other members stand for the rest of the topic. -/
structure vehicle_rates_setpoint_s (F : Type) where
  timestamp : Nat
  roll : F
  pitch : F
  yaw : F
  thrust : F
deriving DecidableEq, Repr

/-- The uORB topic `struct actuator_controls_s`, declared outside the translated file: the
array `control[]`, indexed by channel number. -/
structure actuator_controls_s (F : Type) where
  control : Nat → F

/-- The assignment `actuators->control[i] = v`. -/
def actuator_controls_s.set {F : Type} (a : actuator_controls_s F) (i : Nat) (v : F) :
    actuator_controls_s F :=
  { control := fun j => if j = i then v else a.control j }

/-- What the translated file uses without defining it.

* `F` is the C type `float`, `H` the handle type `param_t`, `P` the type `PID_t`.
* `param_find` is the store's lookup by name (the parameter table is fixed in the
  firmware image, so the lookup is a function of the name).
* `pid_init`, `pid_set_parameters`, `pid_calculate` are the PID library; each gets the
  controller state it is handed by pointer and returns the state it leaves there
  (`pid_calculate` also returns its `float` result).
* `ofInt`, `ofU64`, `floatToParam`, `paramToFloat` are C's implicit conversions
  `int → float`, `uint64_t → float`, `float → param_t`, `param_t → float`;
  `fdiv` is `float` division; `lit_0_01f` and `lit_1000000f` are the literals
  `0.01f` and `1000000.0f`.
* `zeroParam` and `zeroPid` are the zero-filled values statics start with. -/
structure Extern (F H P : Type) where
  param_find : String → H
  pid_init : P → F → F → F → F → Nat → P
  pid_set_parameters : P → F → F → F → F → P
  pid_calculate : P → F → F → F → F → P × F
  PID_MODE_DERIVATIV_SET : Nat
  ofInt : Int → F
  ofU64 : Nat → F
  fdiv : F → F → F
  lit_0_01f : F
  lit_1000000f : F
  floatToParam : F → H
  paramToFloat : H → F
  zeroParam : H
  zeroPid : P

/-- The parameter store as one `parameters_update` sees it: for a handle, the value
`param_get` writes into the destination, or `none` when the read fails. -/
abbrev Store (H : Type) := H → Option H

/-- What one invocation observes of the world outside its arguments: the two values
returned by its two calls of `hrt_absolute_time()` (lines 139 and 140), and the store as
seen by the `parameters_update` of the first-call block (line 145) and by the one of the
cadence block (line 154). -/
structure World (H : Type) where
  now1 : Nat
  now2 : Nat
  store1 : Store H
  store2 : Store H

/-- The `static` variables of `fixedwing_att_control_rates` (lines 130-138). -/
structure Statics (H P : Type) where
  counter : Int
  initialized : Bool
  p : fw_rate_control_params H
  h : fw_rate_control_params H
  roll_rate_controller : P
  last_run : Nat

/-- A call made by one invocation, with the `float` arguments handed over. -/
inductive Call (F : Type) where
  | parameters_init : Call F
  | parameters_update : Call F
  | pid_init (kp ki kd intmax : F) (mode : Nat) : Call F
  | pid_set_parameters (kp ki kd intmax : F) : Call F
  | pid_calculate (sp val val_dot dt : F) : Call F
deriving DecidableEq, Repr

/-- Whether a call is one to the control law (the PID library). -/
def Call.isPid {F : Type} : Call F → Bool
  | .pid_init _ _ _ _ _ => true
  | .pid_set_parameters _ _ _ _ => true
  | .pid_calculate _ _ _ _ => true
  | _ => false

/-- What one invocation leaves behind: the returned status, the statics, the actuator
struct and the calls it made, in order. -/
structure Outcome (F H P : Type) where
  ret : Int
  statics : Statics H P
  actuators : actuator_controls_s F
  trace : List (Call F)

/-! ## Machine integers -/

/-- A value of type `uint64_t`. -/
def u64 (n : Nat) : Nat := n % 2 ^ 64

/-- Subtraction of two `uint64_t` values. -/
def u64_sub (a b : Nat) : Nat := (a + 2 ^ 64 - b % 2 ^ 64) % 2 ^ 64

/-- The C expression `counter++` on an `int`: the successor, wrapped to 32 bits two's
complement (what the target does where C leaves overflow undefined). -/
def int_incr (c : Int) : Int := (c + 1 + 2 ^ 31) % 2 ^ 32 - 2 ^ 31

/-- The NuttX status `OK`. -/
def OK : Int := 0

/-! ## The translated functions -/

variable {F H P : Type}

/-- Modelled from the spec: the store's `param_get(param, &val)`, defined outside the
translated file ("leaves `out` unmodified on failure"): on success the destination gets
the stored value, on failure it is left as it was.  The status it returns is ignored by
the source. -/
def param_get (store : Store H) (param : H) (val : H) : H :=
  match store param with
  | some v => v
  | none => val

/-- The source's `parameters_init` (lines 86-105): binds the ten names. -/
def parameters_init (E : Extern F H P) : Int × fw_rate_control_params H :=
  (OK,
   { yawrate_p := E.param_find "MC_YAWRATE_P"
     yawrate_i := E.param_find "MC_YAWRATE_I"
     yawrate_d := E.param_find "MC_YAWRATE_D"
     yawrate_awu := E.param_find "MC_YAWRATE_AWU"
     yawrate_lim := E.param_find "MC_YAWRATE_LIM"
     attrate_p := E.param_find "MC_ATTRATE_P"
     attrate_i := E.param_find "MC_ATTRATE_I"
     attrate_d := E.param_find "MC_ATTRATE_D"
     attrate_awu := E.param_find "MC_ATTRATE_AWU"
     attrate_lim := E.param_find "MC_ATTRATE_LIM" })

/-- The source's `parameters_update` (lines 107-124): ten `param_get`s into `p`, then
`p->attrate_i = 0.01f`, an assignment of a `float` to a member of type `param_t`. -/
def parameters_update (E : Extern F H P) (store : Store H)
    (h p : fw_rate_control_params H) : Int × fw_rate_control_params H :=
  let p1 : fw_rate_control_params H :=
    { yawrate_p := param_get store h.yawrate_p p.yawrate_p
      yawrate_i := param_get store h.yawrate_i p.yawrate_i
      yawrate_d := param_get store h.yawrate_d p.yawrate_d
      yawrate_awu := param_get store h.yawrate_awu p.yawrate_awu
      yawrate_lim := param_get store h.yawrate_lim p.yawrate_lim
      attrate_p := param_get store h.attrate_p p.attrate_p
      attrate_i := param_get store h.attrate_i p.attrate_i
      attrate_d := param_get store h.attrate_d p.attrate_d
      attrate_awu := param_get store h.attrate_awu p.attrate_awu
      attrate_lim := param_get store h.attrate_lim p.attrate_lim }
  (OK, { p1 with attrate_i := E.floatToParam E.lit_0_01f })

/-- The elapsed microseconds of line 139, `hrt_absolute_time() - last_run` in
`uint64_t`: the numerator of `deltaT`. -/
def elapsed_us (w : World H) (st : Statics H P) : Nat :=
  u64_sub (u64 w.now1) st.last_run

/-- The `deltaT` of line 139: the elapsed microseconds divided by `1000000.0f`. -/
def deltaT (E : Extern F H P) (w : World H) (st : Statics H P) : F :=
  E.fdiv (E.ofU64 (elapsed_us w st)) E.lit_1000000f

/-- Lines 142-148, the block under `if(!initialized)`. -/
def first_call_block (E : Extern F H P) (w : World H) (st : Statics H P) :
    Statics H P × List (Call F) :=
  if st.initialized = false then
    let h := (parameters_init E).2
    let p := (parameters_update E w.store1 h st.p).2
    let kp := E.paramToFloat p.attrate_p
    let ki := E.paramToFloat p.attrate_i
    let kd := E.ofInt 0
    let awu := E.paramToFloat p.attrate_awu
    ({ st with
        h := h
        p := p
        roll_rate_controller :=
          E.pid_init st.roll_rate_controller kp ki kd awu E.PID_MODE_DERIVATIV_SET
        initialized := true },
     [Call.parameters_init, Call.parameters_update,
      Call.pid_init kp ki kd awu E.PID_MODE_DERIVATIV_SET])
  else (st, [])

/-- Lines 150-155, the block under `if (counter % 2500 == 0)`: first
`pid_set_parameters` with the gains `p` holds on entry, then `parameters_update`. -/
def cadence_block (E : Extern F H P) (w : World H) (st : Statics H P) :
    Statics H P × List (Call F) :=
  if Int.tmod st.counter 2500 = 0 then
    let kp := E.paramToFloat st.p.attrate_p
    let ki := E.paramToFloat st.p.attrate_i
    let kd := E.ofInt 0
    let awu := E.paramToFloat st.p.attrate_awu
    ({ st with
        roll_rate_controller := E.pid_set_parameters st.roll_rate_controller kp ki kd awu
        p := (parameters_update E w.store2 st.h st.p).2 },
     [Call.pid_set_parameters kp ki kd awu, Call.parameters_update])
  else (st, [])

/-- The statics as they stand when line 158 calls `pid_calculate`. -/
def at_calculate (E : Extern F H P) (w : World H) (st : Statics H P) : Statics H P :=
  (cadence_block E w (first_call_block E w { st with last_run := u64 w.now2 }).1).1

/-- The source's `fixedwing_att_control_rates` (lines 126-167). -/
def fixedwing_att_control_rates (E : Extern F H P) (w : World H) (st : Statics H P)
    (rate_sp : vehicle_rates_setpoint_s F) (rates : Nat → F)
    (actuators : actuator_controls_s F) : Outcome F H P :=
  let dt := deltaT E w st
  let s0 : Statics H P := { st with last_run := u64 w.now2 }
  let a := first_call_block E w s0
  let b := cadence_block E w a.1
  let r := E.pid_calculate b.1.roll_rate_controller rate_sp.roll (rates 0) (E.ofInt 0) dt
  let act := ((actuators.set 0 r.2).set 1 (E.ofInt 0)).set 2 (E.ofInt 0)
  { ret := 0
    statics := { b.1 with roll_rate_controller := r.1, counter := int_incr b.1.counter }
    actuators := act
    trace := a.2 ++ b.2 ++ [Call.pid_calculate rate_sp.roll (rates 0) (E.ofInt 0) dt] }

/-- The statics before the first invocation: `counter = 0`, `initialized = false`,
`last_run = 0`, the structs zero-filled. -/
def Statics.initial (E : Extern F H P) : Statics H P :=
  let z : fw_rate_control_params H :=
    { yawrate_p := E.zeroParam, yawrate_i := E.zeroParam, yawrate_d := E.zeroParam
      yawrate_awu := E.zeroParam, yawrate_lim := E.zeroParam, attrate_p := E.zeroParam
      attrate_i := E.zeroParam, attrate_d := E.zeroParam, attrate_awu := E.zeroParam
      attrate_lim := E.zeroParam }
  { counter := 0, initialized := false, p := z, h := z,
    roll_rate_controller := E.zeroPid, last_run := 0 }

/-! ## Runs: consecutive invocations -/

/-- Everything one invocation is given: what it observes of the world and its three
arguments. -/
structure Tick (F H : Type) where
  world : World H
  rate_sp : vehicle_rates_setpoint_s F
  rates : Nat → F
  actuators : actuator_controls_s F

/-- One invocation on a tick. -/
def step (E : Extern F H P) (st : Statics H P) (x : Tick F H) : Outcome F H P :=
  fixedwing_att_control_rates E x.world st x.rate_sp x.rates x.actuators

/-- The outcomes of consecutive invocations, each starting from the statics the previous
one left. -/
def run (E : Extern F H P) : Statics H P → List (Tick F H) → List (Outcome F H P)
  | _, [] => []
  | st, x :: xs => step E st x :: run E (step E st x).statics xs

/-- The statics left by consecutive invocations. -/
def run_statics (E : Extern F H P) : Statics H P → List (Tick F H) → Statics H P
  | st, [] => st
  | st, x :: xs => run_statics E (step E st x).statics xs

/-- The sequence of actuator channel-0 outputs of a run. -/
def channel0 (rs : List (Outcome F H P)) : List F :=
  rs.map fun r => r.actuators.control 0

/-- The calls a run makes to the control law, in order over all its invocations. -/
def pid_calls (rs : List (Outcome F H P)) : List (Call F) :=
  (rs.map fun r => r.trace.filter Call.isPid).flatten

/-! ## The reference of the refinement claim -/

/-- The reference invocation, following the spec's words ("a reference run that performs
the first-invocation binding, load and initialization but never refreshes afterwards"):
the source's function without the cadence block of lines 150-155. -/
def reference_rates (E : Extern F H P) (w : World H) (st : Statics H P)
    (rate_sp : vehicle_rates_setpoint_s F) (rates : Nat → F)
    (actuators : actuator_controls_s F) : Outcome F H P :=
  let dt := deltaT E w st
  let s0 : Statics H P := { st with last_run := u64 w.now2 }
  let a := first_call_block E w s0
  let r := E.pid_calculate a.1.roll_rate_controller rate_sp.roll (rates 0) (E.ofInt 0) dt
  let act := ((actuators.set 0 r.2).set 1 (E.ofInt 0)).set 2 (E.ofInt 0)
  { ret := 0
    statics := { a.1 with roll_rate_controller := r.1, counter := int_incr a.1.counter }
    actuators := act
    trace := a.2 ++ [Call.pid_calculate rate_sp.roll (rates 0) (E.ofInt 0) dt] }

/-- The outcomes of consecutive reference invocations. -/
def reference_run (E : Extern F H P) : Statics H P → List (Tick F H) → List (Outcome F H P)
  | _, [] => []
  | st, x :: xs =>
    reference_rates E x.world st x.rate_sp x.rates x.actuators ::
      reference_run E
        (reference_rates E x.world st x.rate_sp x.rates x.actuators).statics xs

/-- The gains a controller state already holds: the ones most recently handed to it by
`pid_init` or `pid_set_parameters`, any number of `pid_calculate` calls ago. -/
inductive Holds (E : Extern F H P) : P → F → F → F → F → Prop where
  | init (s : P) (kp ki kd awu : F) (mode : Nat) :
      Holds E (E.pid_init s kp ki kd awu mode) kp ki kd awu
  | set (s : P) (kp ki kd awu : F) :
      Holds E (E.pid_set_parameters s kp ki kd awu) kp ki kd awu
  | calculate (s : P) (kp ki kd awu sp val val_dot dt : F) :
      Holds E s kp ki kd awu → Holds E (E.pid_calculate s sp val val_dot dt).1 kp ki kd awu

/-- Two ticks agree on what the noninterference claim fixes: both clock readings,
`rate_sp->roll`, `rates[0]`, and what the store yields for `MC_ATTRATE_P` and
`MC_ATTRATE_AWU` at either read. -/
def Agree (E : Extern F H P) (x y : Tick F H) : Prop :=
  x.world.now1 = y.world.now1 ∧ x.world.now2 = y.world.now2 ∧
  x.rate_sp.roll = y.rate_sp.roll ∧ x.rates 0 = y.rates 0 ∧
  x.world.store1 (E.param_find "MC_ATTRATE_P") = y.world.store1 (E.param_find "MC_ATTRATE_P") ∧
  x.world.store1 (E.param_find "MC_ATTRATE_AWU") =
    y.world.store1 (E.param_find "MC_ATTRATE_AWU") ∧
  x.world.store2 (E.param_find "MC_ATTRATE_P") = y.world.store2 (E.param_find "MC_ATTRATE_P") ∧
  x.world.store2 (E.param_find "MC_ATTRATE_AWU") =
    y.world.store2 (E.param_find "MC_ATTRATE_AWU")

/-- The simulation relation of the refinement claim, between the statics of the source's
run and those of the reference run under a store that always reads `s`: they agree on
what the control law sees, and once initialized the source's controller already holds
the gains of `p`, which a further `parameters_update` from `s` leaves as it is. -/
def Sim (E : Extern F H P) (s : Store H) (st ref : Statics H P) : Prop :=
  st.initialized = ref.initialized ∧ st.last_run = ref.last_run ∧
  st.roll_rate_controller = ref.roll_rate_controller ∧
  (st.initialized = false → st.p = ref.p) ∧
  (st.initialized = true →
    Holds E st.roll_rate_controller (E.paramToFloat st.p.attrate_p)
      (E.paramToFloat st.p.attrate_i) (E.ofInt 0) (E.paramToFloat st.p.attrate_awu) ∧
    (parameters_update E s st.h st.p).2 = st.p)

/-- The relation kept between two runs of the noninterference claim: the statics agree
on the counter, the flag, the timestamp, the controller and the three members of `p`
handed to the control law, and once initialized both handle sets hold the handles of
`MC_ATTRATE_P` and `MC_ATTRATE_AWU`. -/
def Alike (E : Extern F H P) (st st' : Statics H P) : Prop :=
  st.counter = st'.counter ∧ st.initialized = st'.initialized ∧
  st.last_run = st'.last_run ∧ st.roll_rate_controller = st'.roll_rate_controller ∧
  st.p.attrate_p = st'.p.attrate_p ∧ st.p.attrate_i = st'.p.attrate_i ∧
  st.p.attrate_awu = st'.p.attrate_awu ∧
  (st.initialized = true →
    st.h.attrate_p = E.param_find "MC_ATTRATE_P" ∧
    st.h.attrate_awu = E.param_find "MC_ATTRATE_AWU" ∧
    st'.h.attrate_p = E.param_find "MC_ATTRATE_P" ∧
    st'.h.attrate_awu = E.param_find "MC_ATTRATE_AWU")

/-! ## A concrete environment -/

/-- Modelled from the spec: the PID library's `PID_t` is declared outside the translated
file; this is a PI(D) control law state with the interface of the spec's section 6: the
four gains, the mode and the integrator's accumulated value. -/
structure PID_t where
  kp : ℚ
  ki : ℚ
  kd : ℚ
  intmax : ℚ
  mode : Nat
  integral : ℚ
deriving DecidableEq

/-- The ten parameter names of `parameters_init`, in the order of the source. -/
def param_names : List String :=
  ["MC_YAWRATE_P", "MC_YAWRATE_I", "MC_YAWRATE_D", "MC_YAWRATE_AWU", "MC_YAWRATE_LIM",
   "MC_ATTRATE_P", "MC_ATTRATE_I", "MC_ATTRATE_D", "MC_ATTRATE_AWU", "MC_ATTRATE_LIM"]

/-- The sentinel handle `PARAM_INVALID` named in lines 101-102 of the source. -/
def PARAM_INVALID : Nat := 0xffffffff

/-- A concrete environment for evaluating the definitions.

* `float` is idealised as the rationals, so `0.01f` is `1/100` and division is exact.
* `param_t` is an unsigned 32-bit machine word, as in PX4's `systemlib/param/param.h`
  (`typedef uintptr_t param_t`, not among the translated files): the source compares
  handles with the sentinel `PARAM_INVALID` and converts between `param_t` and `float`.
  `float → param_t` truncates toward zero, `param_t → float` is the word's value.
* `param_find` gives a name its index in `param_names`, or `PARAM_INVALID`.
* The PID library is modelled from the spec's section 6: `pid_init` constructs the state
  with a zero integrator, `pid_set_parameters` replaces the four gains only, and
  `pid_calculate` is a PI(D) law whose integrator is left as it is when no time has
  passed or the anti-windup limit would be exceeded. -/
def px4 : Extern ℚ Nat PID_t where
  param_find := fun name =>
    if param_names.indexOf name < param_names.length then param_names.indexOf name
    else PARAM_INVALID
  pid_init := fun _ kp ki kd intmax mode =>
    { kp := kp, ki := ki, kd := kd, intmax := intmax, mode := mode, integral := 0 }
  pid_set_parameters := fun s kp ki kd intmax =>
    { s with kp := kp, ki := ki, kd := kd, intmax := intmax }
  pid_calculate := fun s sp val val_dot dt =>
    let i := if 0 < dt ∧ |s.integral + (sp - val) * dt| ≤ s.intmax
      then s.integral + (sp - val) * dt else s.integral
    ({ s with integral := i }, s.kp * (sp - val) + s.ki * i - s.kd * val_dot)
  PID_MODE_DERIVATIV_SET := 1
  ofInt := fun z => (z : ℚ)
  ofU64 := fun n => (n : ℚ)
  fdiv := fun a b => a / b
  lit_0_01f := 1 / 100
  lit_1000000f := 1000000
  floatToParam := fun q => Int.toNat ⌊q⌋ % 2 ^ 32
  paramToFloat := fun n => (n : ℚ)
  zeroParam := 0
  zeroPid := { kp := 0, ki := 0, kd := 0, intmax := 0, mode := 0, integral := 0 }

/-- A store holding the word `kp` for `MC_ATTRATE_P` (handle 5), the word `ki` for
`MC_ATTRATE_I` (handle 6) and the word `awu` for `MC_ATTRATE_AWU` (handle 8); every
other read fails. -/
def store_of (kp ki awu : Nat) : Store Nat := fun handle =>
  if handle = 5 then some kp else if handle = 6 then some ki
  else if handle = 8 then some awu else none

/-- A tick with clock readings `t1`, `t2`, the store `s` at both reads, roll setpoint
`sp`, measured roll rate `rate`, and an actuator struct holding 9 on every channel. -/
def tick_of (t1 t2 : Nat) (s : Store Nat) (sp rate : ℚ) : Tick ℚ Nat :=
  { world := { now1 := t1, now2 := t2, store1 := s, store2 := s }
    rate_sp := { timestamp := 0, roll := sp, pitch := 0, yaw := 0, thrust := 0 }
    rates := fun i => if i = 0 then rate else 0
    actuators := { control := fun _ => 9 } }

/-- A run of 2501 ticks, 20 ms apart, under one unchanging store (the bits of `0.8f`,
`0.2f`, `0.3f`), with roll setpoint 1/2 and measured roll rate 0. -/
def steady_ticks : List (Tick ℚ Nat) :=
  (List.range 2501).map fun i =>
    tick_of (20000 * i) (20000 * i) (store_of 1061997773 1045220557 1050253722) (1 / 2) 0

/-- A tick like `tick_of t1 t2 (store_of kp ki awu) sp rate`, except that the store
holds the word 77 for `MC_ATTRATE_I`, `MC_ATTRATE_D`, `MC_ATTRATE_LIM` and the yaw-rate
names, the setpoint's other members are 5, and the measured pitch and yaw rates are 7. -/
def tick_varied (t1 t2 kp awu : Nat) (sp rate : ℚ) : Tick ℚ Nat :=
  { world :=
      { now1 := t1, now2 := t2
        store1 := fun handle => if handle = 5 then some kp else if handle = 8 then some awu
          else some 77
        store2 := fun handle => if handle = 5 then some kp else if handle = 8 then some awu
          else some 77 }
    rate_sp := { timestamp := 1, roll := sp, pitch := 5, yaw := 5, thrust := 5 }
    rates := fun i => if i = 0 then rate else 7
    actuators := { control := fun _ => 9 } }

/-- Statics of `px4` as a cadence hit after the first invocation can find them:
`counter = 2500`, initialized, the controller holding an accumulated integral of 3/10. -/
def cadence_statics : Statics Nat PID_t :=
  { Statics.initial px4 with
    counter := 2500
    initialized := true
    roll_rate_controller :=
      { kp := 1, ki := 0, kd := 0, intmax := 1, mode := 1, integral := 3 / 10 } }

/-! ## Lemmas on the two gated blocks and on runs -/

theorem first_call_block_of_initialized (E : Extern F H P) (w : World H) (st : Statics H P)
    (h : st.initialized = true) : first_call_block E w st = (st, []) := by
  simp [first_call_block, h]

/-- The first-call block on statics not yet initialized. -/
theorem first_call_block_fresh (E : Extern F H P) (w : World H) (st : Statics H P)
    (h : st.initialized = false) :
    first_call_block E w st =
      ({ st with
          h := (parameters_init E).2
          p := (parameters_update E w.store1 (parameters_init E).2 st.p).2
          roll_rate_controller :=
            E.pid_init st.roll_rate_controller
              (E.paramToFloat
                (parameters_update E w.store1 (parameters_init E).2 st.p).2.attrate_p)
              (E.paramToFloat
                (parameters_update E w.store1 (parameters_init E).2 st.p).2.attrate_i)
              (E.ofInt 0)
              (E.paramToFloat
                (parameters_update E w.store1 (parameters_init E).2 st.p).2.attrate_awu)
              E.PID_MODE_DERIVATIV_SET
          initialized := true },
       [Call.parameters_init, Call.parameters_update,
        Call.pid_init
          (E.paramToFloat
            (parameters_update E w.store1 (parameters_init E).2 st.p).2.attrate_p)
          (E.paramToFloat
            (parameters_update E w.store1 (parameters_init E).2 st.p).2.attrate_i)
          (E.ofInt 0)
          (E.paramToFloat
            (parameters_update E w.store1 (parameters_init E).2 st.p).2.attrate_awu)
          E.PID_MODE_DERIVATIV_SET]) := by
  simp [first_call_block, h]

/-- The cadence block on a counter divisible by 2500. -/
theorem cadence_block_hit (E : Extern F H P) (w : World H) (st : Statics H P)
    (h : Int.tmod st.counter 2500 = 0) :
    cadence_block E w st =
      ({ st with
          roll_rate_controller :=
            E.pid_set_parameters st.roll_rate_controller (E.paramToFloat st.p.attrate_p)
              (E.paramToFloat st.p.attrate_i) (E.ofInt 0) (E.paramToFloat st.p.attrate_awu)
          p := (parameters_update E w.store2 st.h st.p).2 },
       [Call.pid_set_parameters (E.paramToFloat st.p.attrate_p)
          (E.paramToFloat st.p.attrate_i) (E.ofInt 0) (E.paramToFloat st.p.attrate_awu),
        Call.parameters_update]) := by
  simp [cadence_block, h]

theorem first_call_block_initialized (E : Extern F H P) (w : World H) (st : Statics H P) :
    (first_call_block E w st).1.initialized = true := by
  unfold first_call_block
  split
  · rfl
  · simp_all

theorem first_call_block_counter (E : Extern F H P) (w : World H) (st : Statics H P) :
    (first_call_block E w st).1.counter = st.counter := by
  unfold first_call_block
  split <;> rfl

theorem cadence_block_skip (E : Extern F H P) (w : World H) (st : Statics H P)
    (h : Int.tmod st.counter 2500 ≠ 0) : cadence_block E w st = (st, []) := by
  simp [cadence_block, h]

theorem cadence_block_initialized (E : Extern F H P) (w : World H) (st : Statics H P) :
    (cadence_block E w st).1.initialized = st.initialized := by
  unfold cadence_block
  split <;> rfl

theorem cadence_block_counter (E : Extern F H P) (w : World H) (st : Statics H P) :
    (cadence_block E w st).1.counter = st.counter := by
  unfold cadence_block
  split <;> rfl

theorem step_counter (E : Extern F H P) (st : Statics H P) (x : Tick F H) :
    (step E st x).statics.counter = int_incr st.counter := by
  simp [step, fixedwing_att_control_rates, cadence_block_counter, first_call_block_counter]

theorem step_initialized (E : Extern F H P) (st : Statics H P) (x : Tick F H) :
    (step E st x).statics.initialized = true := by
  simp [step, fixedwing_att_control_rates, cadence_block_initialized,
    first_call_block_initialized]

theorem int_incr_of_lt (c : Int) (h0 : 0 ≤ c) (h1 : c + 1 < 2 ^ 31) : int_incr c = c + 1 := by
  unfold int_incr
  omega

theorem run_statics_counter (E : Extern F H P) (xs : List (Tick F H)) :
    ∀ st : Statics H P, 0 ≤ st.counter → st.counter + xs.length < 2 ^ 31 →
      (run_statics E st xs).counter = st.counter + xs.length := by
  induction xs with
  | nil => intro st _ _; simp [run_statics]
  | cons y ys ih =>
    intro st h0 h1
    simp only [List.length_cons, Nat.cast_add, Nat.cast_one] at h1
    have hc : (step E st y).statics.counter = st.counter + 1 := by
      rw [step_counter]
      exact int_incr_of_lt _ h0 (by omega)
    simp only [run_statics, List.length_cons, Nat.cast_add, Nat.cast_one]
    rw [ih _ (by omega) (by omega), hc]
    omega

theorem run_statics_initialized (E : Extern F H P) (xs : List (Tick F H)) :
    ∀ st : Statics H P, st.initialized = true →
      (run_statics E st xs).initialized = true := by
  induction xs with
  | nil => intro st h; exact h
  | cons y ys ih => intro st _; exact ih _ (step_initialized E st y)

theorem run_statics_cons_initialized (E : Extern F H P) (st : Statics H P) (x : Tick F H)
    (xs : List (Tick F H)) : (run_statics E st (x :: xs)).initialized = true :=
  run_statics_initialized E xs _ (step_initialized E st x)

/-- An invocation that is neither the first nor a cadence hit makes one call,
`pid_calculate` on the persisted controller, and leaves `p` as it was. -/
theorem step_quiet (E : Extern F H P) (st : Statics H P) (x : Tick F H)
    (hi : st.initialized = true) (hc : Int.tmod st.counter 2500 ≠ 0) :
    (step E st x).trace =
        [Call.pid_calculate x.rate_sp.roll (x.rates 0) (E.ofInt 0) (deltaT E x.world st)] ∧
      (step E st x).statics.p = st.p ∧ (step E st x).statics.h = st.h ∧
      (step E st x).statics.roll_rate_controller =
        (E.pid_calculate st.roll_rate_controller x.rate_sp.roll (x.rates 0) (E.ofInt 0)
          (deltaT E x.world st)).1 := by
  have h1 : first_call_block E x.world { st with last_run := u64 x.world.now2 } =
      ({ st with last_run := u64 x.world.now2 }, []) :=
    first_call_block_of_initialized E _ _ hi
  have h2 : cadence_block E x.world { st with last_run := u64 x.world.now2 } =
      ({ st with last_run := u64 x.world.now2 }, []) :=
    cadence_block_skip E _ _ hc
  simp [step, fixedwing_att_control_rates, h1, h2]

/-- An invocation that is not the first but hits the cadence makes three calls:
`pid_set_parameters` with the gains `p` held on entry, then `parameters_update`, then
`pid_calculate` on the controller `pid_set_parameters` left. -/
theorem step_cadence (E : Extern F H P) (st : Statics H P) (x : Tick F H)
    (hi : st.initialized = true) (hc : Int.tmod st.counter 2500 = 0) :
    (step E st x).trace =
        [Call.pid_set_parameters (E.paramToFloat st.p.attrate_p)
           (E.paramToFloat st.p.attrate_i) (E.ofInt 0) (E.paramToFloat st.p.attrate_awu),
         Call.parameters_update,
         Call.pid_calculate x.rate_sp.roll (x.rates 0) (E.ofInt 0) (deltaT E x.world st)] ∧
      (step E st x).statics.p = (parameters_update E x.world.store2 st.h st.p).2 ∧
      (step E st x).statics.h = st.h ∧
      (step E st x).statics.roll_rate_controller =
        (E.pid_calculate
          (E.pid_set_parameters st.roll_rate_controller (E.paramToFloat st.p.attrate_p)
            (E.paramToFloat st.p.attrate_i) (E.ofInt 0) (E.paramToFloat st.p.attrate_awu))
          x.rate_sp.roll (x.rates 0) (E.ofInt 0) (deltaT E x.world st)).1 := by
  have h1 : first_call_block E x.world { st with last_run := u64 x.world.now2 } =
      ({ st with last_run := u64 x.world.now2 }, []) :=
    first_call_block_of_initialized E _ _ hi
  simp [step, fixedwing_att_control_rates, h1, cadence_block, hc]

theorem step_last_run (E : Extern F H P) (st : Statics H P) (x : Tick F H) :
    (step E st x).statics.last_run = u64 x.world.now2 := by
  have h1 : (first_call_block E x.world { st with last_run := u64 x.world.now2 }).1.last_run
      = u64 x.world.now2 := by
    unfold first_call_block
    split <;> rfl
  have h2 : ∀ s : Statics H P, (cadence_block E x.world s).1.last_run = s.last_run := by
    intro s
    unfold cadence_block
    split <;> rfl
  simp [step, fixedwing_att_control_rates, h1, h2]

theorem step_trace_getLast (E : Extern F H P) (st : Statics H P) (x : Tick F H) :
    (step E st x).trace.getLast? =
      some (Call.pid_calculate x.rate_sp.roll (x.rates 0) (E.ofInt 0)
        (deltaT E x.world st)) := by
  simp [step, fixedwing_att_control_rates]

/-- The first invocation: the calls it makes, in order. -/
theorem first_step_trace (E : Extern F H P) (x : Tick F H) :
    (step E (Statics.initial E) x).trace =
      [Call.parameters_init, Call.parameters_update,
       Call.pid_init
         (E.paramToFloat (param_get x.world.store1 (E.param_find "MC_ATTRATE_P") E.zeroParam))
         (E.paramToFloat (E.floatToParam E.lit_0_01f)) (E.ofInt 0)
         (E.paramToFloat
           (param_get x.world.store1 (E.param_find "MC_ATTRATE_AWU") E.zeroParam))
         E.PID_MODE_DERIVATIV_SET,
       Call.pid_set_parameters
         (E.paramToFloat (param_get x.world.store1 (E.param_find "MC_ATTRATE_P") E.zeroParam))
         (E.paramToFloat (E.floatToParam E.lit_0_01f)) (E.ofInt 0)
         (E.paramToFloat
           (param_get x.world.store1 (E.param_find "MC_ATTRATE_AWU") E.zeroParam)),
       Call.parameters_update,
       Call.pid_calculate x.rate_sp.roll (x.rates 0) (E.ofInt 0)
         (deltaT E x.world (Statics.initial E))] := by
  simp [step, fixedwing_att_control_rates, first_call_block, cadence_block, Statics.initial,
    parameters_init, parameters_update]

/-- Between cadence hits: invocations on initialized statics, none of which finds a
counter divisible by 2500, leave `p` and `h` as they were. -/
theorem run_statics_quiet (E : Extern F H P) (xs : List (Tick F H)) :
    ∀ st : Statics H P, st.initialized = true → 0 ≤ st.counter →
      st.counter + xs.length < 2 ^ 31 →
      (∀ j : Nat, j < xs.length → Int.tmod (st.counter + j) 2500 ≠ 0) →
      (run_statics E st xs).p = st.p ∧ (run_statics E st xs).h = st.h := by
  induction xs with
  | nil => intro st _ _ _ _; exact ⟨rfl, rfl⟩
  | cons y ys ih =>
    intro st hi h0 h1 hq
    simp only [List.length_cons, Nat.cast_add, Nat.cast_one] at h1
    have hc : Int.tmod st.counter 2500 ≠ 0 := by
      have := hq 0 (by simp)
      simpa using this
    have hs := step_quiet E st y hi hc
    have hcnt : (step E st y).statics.counter = st.counter + 1 := by
      rw [step_counter]
      exact int_incr_of_lt _ h0 (by omega)
    have := ih (step E st y).statics (step_initialized E st y) (by omega) (by omega)
      (by
        intro j hj
        have := hq (j + 1) (by simp; omega)
        rw [hcnt]
        have e : st.counter + 1 + (j : Int) = st.counter + ((j + 1 : Nat) : Int) := by
          push_cast; ring
        rw [e]; exact this)
    simp only [run_statics]
    exact ⟨this.1.trans hs.2.1, this.2.trans hs.2.2.1⟩

theorem parameters_update_attrate_i (E : Extern F H P) (store : Store H)
    (h p : fw_rate_control_params H) :
    (parameters_update E store h p).2.attrate_i = E.floatToParam E.lit_0_01f := rfl

theorem parameters_update_attrate_p (E : Extern F H P) (store : Store H)
    (h p : fw_rate_control_params H) :
    (parameters_update E store h p).2.attrate_p = param_get store h.attrate_p p.attrate_p :=
  rfl

theorem parameters_update_attrate_awu (E : Extern F H P) (store : Store H)
    (h p : fw_rate_control_params H) :
    (parameters_update E store h p).2.attrate_awu =
      param_get store h.attrate_awu p.attrate_awu :=
  rfl

theorem parameters_init_attrate_p (E : Extern F H P) :
    (parameters_init E).2.attrate_p = E.param_find "MC_ATTRATE_P" := rfl

theorem parameters_init_attrate_awu (E : Extern F H P) :
    (parameters_init E).2.attrate_awu = E.param_find "MC_ATTRATE_AWU" := rfl

theorem px4_floatToParam_lit : px4.floatToParam px4.lit_0_01f = 0 := by
  have h : ⌊(1 / 100 : ℚ)⌋ = 0 := by
    rw [Int.floor_eq_iff]
    norm_num
  show Int.toNat ⌊(1 / 100 : ℚ)⌋ % 2 ^ 32 = 0
  rw [h]
  rfl

theorem px4_find_attrate_p : px4.param_find "MC_ATTRATE_P" = 5 := by decide

theorem px4_find_attrate_awu : px4.param_find "MC_ATTRATE_AWU" = 8 := by decide

/-- On a cadence hit after the first invocation, `pid_calculate` is evaluated on the
persisted controller after `pid_set_parameters` with the gains `p` held on entry. -/
theorem at_calculate_cadence (E : Extern F H P) (w : World H) (st : Statics H P)
    (hinit : st.initialized = true) (hcad : Int.tmod st.counter 2500 = 0) :
    (at_calculate E w st).roll_rate_controller =
      E.pid_set_parameters st.roll_rate_controller (E.paramToFloat st.p.attrate_p)
        (E.paramToFloat st.p.attrate_i) (E.ofInt 0) (E.paramToFloat st.p.attrate_awu) := by
  have h1 : first_call_block E w { st with last_run := u64 w.now2 } =
      ({ st with last_run := u64 w.now2 }, []) :=
    first_call_block_of_initialized E _ _ hinit
  simp [at_calculate, h1, cadence_block, hcad]

/-- The gain set and the handle set the first invocation leaves: `p` is loaded from the
store twice, `h` is what `parameters_init` bound. -/
theorem first_step_statics (E : Extern F H P) (x : Tick F H) :
    (step E (Statics.initial E) x).statics.p =
        (parameters_update E x.world.store2 (parameters_init E).2
          (parameters_update E x.world.store1 (parameters_init E).2
            (Statics.initial E).p).2).2 ∧
      (step E (Statics.initial E) x).statics.h = (parameters_init E).2 ∧
      (step E (Statics.initial E) x).statics.counter = 1 := by
  refine ⟨?_, ?_, ?_⟩
  · simp [step, fixedwing_att_control_rates, first_call_block, cadence_block, Statics.initial]
  · simp [step, fixedwing_att_control_rates, first_call_block, cadence_block, Statics.initial]
  · rw [step_counter]; simp [Statics.initial, int_incr]

/-! ## Lemmas for the refinement and the noninterference claims -/

theorem param_get_idem (store : Store H) (a v : H) :
    param_get store a (param_get store a v) = param_get store a v := by
  unfold param_get
  cases store a <;> rfl

theorem parameters_update_idem (E : Extern F H P) (store : Store H)
    (h p : fw_rate_control_params H) :
    (parameters_update E store h (parameters_update E store h p).2).2 =
      (parameters_update E store h p).2 := by
  simp [parameters_update, param_get_idem]

/-- After the first-call block the source and the reference hold the same controller,
which already holds the gains of the source's `p`, a fixed point of the store `s`. -/
theorem first_call_block_sim (E : Extern F H P) (s : Store H) (w : World H)
    (st ref : Statics H P) (l : Nat) (hs : Sim E s st ref) (h1 : w.store1 = s) :
    Sim E s (first_call_block E w { st with last_run := l }).1
        (first_call_block E w { ref with last_run := l }).1 ∧
      (first_call_block E w { st with last_run := l }).1.initialized = true := by
  obtain ⟨hi, -, hp, hu, hini⟩ := hs
  refine ⟨?_, first_call_block_initialized E w _⟩
  rcases Bool.eq_false_or_eq_true st.initialized with hst | hst
  · have hri : ref.initialized = true := by rw [← hi, hst]
    rw [first_call_block_of_initialized E w { st with last_run := l } hst,
      first_call_block_of_initialized E w { ref with last_run := l } hri]
    exact ⟨by simp [hst, hri], rfl, hp, fun h => by simp [hst] at h, fun _ => hini hst⟩
  · have hri : ref.initialized = false := by rw [← hi, hst]
    have hpp := hu hst
    rw [first_call_block_fresh E w { st with last_run := l } hst,
      first_call_block_fresh E w { ref with last_run := l } hri, h1]
    dsimp only
    rw [hp, hpp]
    refine ⟨rfl, rfl, rfl, fun h => by simp at h, fun _ => ?_⟩
    exact ⟨Holds.init _ _ _ _ _ _, parameters_update_idem E s _ _⟩

/-- Under the claim's assumption on `pid_set_parameters`, the cadence block changes
nothing on statics whose controller holds the gains of `p` and whose `p` is a fixed point
of the store. -/
theorem cadence_block_noop (E : Extern F H P) (s : Store H) (w : World H)
    (hnoop : ∀ pid kp ki kd awu, Holds E pid kp ki kd awu →
      E.pid_set_parameters pid kp ki kd awu = pid)
    (t : Statics H P) (h2 : w.store2 = s)
    (hh : Holds E t.roll_rate_controller (E.paramToFloat t.p.attrate_p)
      (E.paramToFloat t.p.attrate_i) (E.ofInt 0) (E.paramToFloat t.p.attrate_awu))
    (hfix : (parameters_update E s t.h t.p).2 = t.p) :
    (cadence_block E w t).1 = t := by
  unfold cadence_block
  split
  · simp only [h2, hnoop _ _ _ _ _ hh, hfix]
  · rfl

/-- One invocation of the source and one of the reference, from related statics and
under the store `s`, give the same channel-0 output and related statics. -/
theorem sim_step (E : Extern F H P) (s : Store H)
    (hnoop : ∀ pid kp ki kd awu, Holds E pid kp ki kd awu →
      E.pid_set_parameters pid kp ki kd awu = pid)
    (st ref : Statics H P) (x : Tick F H) (hs : Sim E s st ref)
    (h1 : x.world.store1 = s) (h2 : x.world.store2 = s) :
    (step E st x).actuators.control 0 =
        (reference_rates E x.world ref x.rate_sp x.rates x.actuators).actuators.control 0 ∧
      Sim E s (step E st x).statics
        (reference_rates E x.world ref x.rate_sp x.rates x.actuators).statics := by
  have hdt : deltaT E x.world st = deltaT E x.world ref := by
    simp [deltaT, elapsed_us, hs.2.1]
  obtain ⟨⟨ai, al, ap, -, aini⟩, ainit⟩ :=
    first_call_block_sim E s x.world st ref (u64 x.world.now2) hs h1
  obtain ⟨ah, afix⟩ := aini ainit
  have hb := cadence_block_noop E s x.world hnoop _ h2 ah afix
  have hout : (step E st x).actuators.control 0 =
      (E.pid_calculate
        (cadence_block E x.world
          (first_call_block E x.world { st with last_run := u64 x.world.now2 }).1).1.roll_rate_controller
        x.rate_sp.roll (x.rates 0) (E.ofInt 0) (deltaT E x.world st)).2 := by
    simp [step, fixedwing_att_control_rates, actuator_controls_s.set]
  have href : (reference_rates E x.world ref x.rate_sp x.rates x.actuators).actuators.control 0 =
      (E.pid_calculate
        (first_call_block E x.world { ref with last_run := u64 x.world.now2 }).1.roll_rate_controller
        x.rate_sp.roll (x.rates 0) (E.ofInt 0) (deltaT E x.world ref)).2 := by
    simp [reference_rates, actuator_controls_s.set]
  refine ⟨by rw [hout, href, hb, ap, hdt], ?_⟩
  simp only [step, fixedwing_att_control_rates, reference_rates, hb, Sim]
  refine ⟨ai, al, by rw [ap, hdt], fun h => ?_, fun _ => ⟨Holds.calculate _ _ _ _ _ _ _ _ _ ah, afix⟩⟩
  rw [ainit] at h
  exact absurd h (by simp)

theorem sim_run (E : Extern F H P) (s : Store H)
    (hnoop : ∀ pid kp ki kd awu, Holds E pid kp ki kd awu →
      E.pid_set_parameters pid kp ki kd awu = pid)
    (xs : List (Tick F H)) :
    ∀ st ref : Statics H P, Sim E s st ref →
      (∀ x ∈ xs, x.world.store1 = s ∧ x.world.store2 = s) →
      channel0 (run E st xs) = channel0 (reference_run E ref xs) := by
  induction xs with
  | nil => intro _ _ _ _; rfl
  | cons y ys ih =>
    intro st ref hs hx
    have hy := hx y (List.mem_cons_self _ _)
    have h := sim_step E s hnoop st ref y hs hy.1 hy.2
    have := ih _ _ h.2 (fun x hm => hx x (List.mem_cons_of_mem _ hm))
    simp only [run, reference_run, channel0, List.map_cons] at this ⊢
    rw [h.1, this]

theorem sim_initial (E : Extern F H P) (s : Store H) :
    Sim E s (Statics.initial E) (Statics.initial E) := by
  simp [Sim, Statics.initial]

theorem parameters_update_agree (E : Extern F H P) (s s' : Store H)
    (p p' : fw_rate_control_params H)
    (hP : s (E.param_find "MC_ATTRATE_P") = s' (E.param_find "MC_ATTRATE_P"))
    (hA : s (E.param_find "MC_ATTRATE_AWU") = s' (E.param_find "MC_ATTRATE_AWU"))
    (h h' : fw_rate_control_params H)
    (hh : h.attrate_p = E.param_find "MC_ATTRATE_P" ∧
      h.attrate_awu = E.param_find "MC_ATTRATE_AWU" ∧
      h'.attrate_p = E.param_find "MC_ATTRATE_P" ∧
      h'.attrate_awu = E.param_find "MC_ATTRATE_AWU")
    (hp : p.attrate_p = p'.attrate_p) (ha : p.attrate_awu = p'.attrate_awu) :
    (parameters_update E s h p).2.attrate_p = (parameters_update E s' h' p').2.attrate_p ∧
      (parameters_update E s h p).2.attrate_i = (parameters_update E s' h' p').2.attrate_i ∧
      (parameters_update E s h p).2.attrate_awu =
        (parameters_update E s' h' p').2.attrate_awu := by
  refine ⟨?_, rfl, ?_⟩
  · rw [parameters_update_attrate_p, parameters_update_attrate_p, hh.1, hh.2.2.1]
    unfold param_get
    rw [hP, hp]
  · rw [parameters_update_attrate_awu, parameters_update_attrate_awu, hh.2.1, hh.2.2.2]
    unfold param_get
    rw [hA, ha]

theorem parameters_init_handles (E : Extern F H P) :
    (parameters_init E).2.attrate_p = E.param_find "MC_ATTRATE_P" ∧
      (parameters_init E).2.attrate_awu = E.param_find "MC_ATTRATE_AWU" ∧
      (parameters_init E).2.attrate_p = E.param_find "MC_ATTRATE_P" ∧
      (parameters_init E).2.attrate_awu = E.param_find "MC_ATTRATE_AWU" :=
  ⟨rfl, rfl, rfl, rfl⟩

/-- The first-call block keeps two statics alike when the two stores agree on
`MC_ATTRATE_P` and `MC_ATTRATE_AWU`, and makes the same control-law calls. -/
theorem first_call_block_alike (E : Extern F H P) (w w' : World H) (st st' : Statics H P)
    (hs : Alike E st st')
    (hP : w.store1 (E.param_find "MC_ATTRATE_P") = w'.store1 (E.param_find "MC_ATTRATE_P"))
    (hA : w.store1 (E.param_find "MC_ATTRATE_AWU") =
      w'.store1 (E.param_find "MC_ATTRATE_AWU")) :
    Alike E (first_call_block E w st).1 (first_call_block E w' st').1 ∧
      (first_call_block E w st).2.filter Call.isPid =
        (first_call_block E w' st').2.filter Call.isPid := by
  obtain ⟨hc, hi, hl, hpid, hp, hpi, hpa, hh⟩ := hs
  rcases Bool.eq_false_or_eq_true st.initialized with hst | hst
  · have hri : st'.initialized = true := by rw [← hi, hst]
    rw [first_call_block_of_initialized E w st hst,
      first_call_block_of_initialized E w' st' hri]
    exact ⟨⟨hc, hi, hl, hpid, hp, hpi, hpa, hh⟩, rfl⟩
  · have hri : st'.initialized = false := by rw [← hi, hst]
    obtain ⟨e1, e2, e3⟩ := parameters_update_agree E w.store1 w'.store1 st.p st'.p hP hA
      (parameters_init E).2 (parameters_init E).2 (parameters_init_handles E) hp hpa
    rw [first_call_block_fresh E w st hst, first_call_block_fresh E w' st' hri]
    dsimp only
    rw [e1, e2, e3, hpid]
    exact ⟨⟨hc, rfl, hl, rfl, e1, e2, e3, fun _ => parameters_init_handles E⟩, rfl⟩

/-- The cadence block keeps two initialized statics alike when the two stores agree on
`MC_ATTRATE_P` and `MC_ATTRATE_AWU`, and makes the same control-law calls. -/
theorem cadence_block_alike (E : Extern F H P) (w w' : World H) (st st' : Statics H P)
    (hs : Alike E st st') (hinit : st.initialized = true)
    (hP : w.store2 (E.param_find "MC_ATTRATE_P") = w'.store2 (E.param_find "MC_ATTRATE_P"))
    (hA : w.store2 (E.param_find "MC_ATTRATE_AWU") =
      w'.store2 (E.param_find "MC_ATTRATE_AWU")) :
    Alike E (cadence_block E w st).1 (cadence_block E w' st').1 ∧
      (cadence_block E w st).2.filter Call.isPid =
        (cadence_block E w' st').2.filter Call.isPid := by
  obtain ⟨hc, hi, hl, hpid, hp, hpi, hpa, hh⟩ := hs
  by_cases hcad : Int.tmod st.counter 2500 = 0
  · have hcad' : Int.tmod st'.counter 2500 = 0 := by rw [← hc]; exact hcad
    obtain ⟨e1, e2, e3⟩ := parameters_update_agree E w.store2 w'.store2 st.p st'.p hP hA
      st.h st'.h (hh hinit) hp hpa
    rw [cadence_block_hit E w st hcad, cadence_block_hit E w' st' hcad']
    dsimp only
    rw [hp, hpi, hpa, hpid]
    exact ⟨⟨hc, hi, hl, rfl, e1, e2, e3, hh⟩, rfl⟩
  · have hcad' : Int.tmod st'.counter 2500 ≠ 0 := by rw [← hc]; exact hcad
    rw [cadence_block_skip E w st hcad, cadence_block_skip E w' st' hcad']
    exact ⟨⟨hc, hi, hl, hpid, hp, hpi, hpa, hh⟩, rfl⟩

/-- One invocation on agreeing ticks from alike statics: the same control-law calls, the
same channel-0 output, and alike statics again. -/
theorem alike_step (E : Extern F H P) (st st' : Statics H P) (x y : Tick F H)
    (hs : Alike E st st') (hxy : Agree E x y) :
    (step E st x).trace.filter Call.isPid = (step E st' y).trace.filter Call.isPid ∧
      (step E st x).actuators.control 0 = (step E st' y).actuators.control 0 ∧
      Alike E (step E st x).statics (step E st' y).statics := by
  obtain ⟨n1, n2, hroll, hrate, p1, a1, p2, a2⟩ := hxy
  have hdt : deltaT E x.world st = deltaT E y.world st' := by
    simp [deltaT, elapsed_us, hs.2.2.1, n1]
  have h0 : Alike E { st with last_run := u64 x.world.now2 }
      { st' with last_run := u64 y.world.now2 } := by
    obtain ⟨hc, hi, -, hpid, hp, hpi, hpa, hh⟩ := hs
    exact ⟨hc, hi, by simp [n2], hpid, hp, hpi, hpa, hh⟩
  obtain ⟨ha, hat⟩ := first_call_block_alike E x.world y.world _ _ h0 p1 a1
  obtain ⟨hb, hbt⟩ := cadence_block_alike E x.world y.world _ _ ha
    (first_call_block_initialized E x.world _) p2 a2
  obtain ⟨bc, bi, bl, bpid, bp, bpi, bpa, bh⟩ := hb
  refine ⟨?_, ?_, ?_⟩
  · simp only [step, fixedwing_att_control_rates, List.filter_append, hat, hbt, hroll,
      hrate, hdt]
  · simp only [step, fixedwing_att_control_rates, actuator_controls_s.set, if_true, bpid,
      hroll, hrate, hdt]
  · simp only [step, fixedwing_att_control_rates, bpid, hroll, hrate, hdt, bc]
    exact ⟨rfl, bi, bl, rfl, bp, bpi, bpa, bh⟩

theorem alike_run (E : Extern F H P) (xs ys : List (Tick F H))
    (h : List.Forall₂ (Agree E) xs ys) :
    ∀ st st' : Statics H P, Alike E st st' →
      pid_calls (run E st xs) = pid_calls (run E st' ys) ∧
        channel0 (run E st xs) = channel0 (run E st' ys) := by
  induction h with
  | nil => intro _ _ _; exact ⟨rfl, rfl⟩
  | cons hxy _ ih =>
    intro st st' hs
    obtain ⟨ht, ho, hn⟩ := alike_step E st st' _ _ hs hxy
    obtain ⟨i1, i2⟩ := ih _ _ hn
    simp only [pid_calls, channel0, run, List.map_cons, List.flatten_cons] at i1 i2 ⊢
    exact ⟨by rw [ht, i1], by rw [ho, i2]⟩

theorem alike_initial (E : Extern F H P) : Alike E (Statics.initial E) (Statics.initial E) := by
  simp [Alike, Statics.initial]

/-- In `px4` a controller that holds gains has them in its four gain fields. -/
theorem px4_holds_fields (pid : PID_t) (kp ki kd awu : ℚ) (h : Holds px4 pid kp ki kd awu) :
    pid.kp = kp ∧ pid.ki = ki ∧ pid.kd = kd ∧ pid.intmax = awu := by
  induction h with
  | init s kp ki kd awu mode => exact ⟨rfl, rfl, rfl, rfl⟩
  | set s kp ki kd awu => exact ⟨rfl, rfl, rfl, rfl⟩
  | calculate s kp ki kd awu sp val val_dot dt _ ih => exact ih

/-- In `px4`, `pid_set_parameters` with the gains already held changes nothing. -/
theorem px4_set_parameters_noop (pid : PID_t) (kp ki kd awu : ℚ)
    (h : Holds px4 pid kp ki kd awu) : px4.pid_set_parameters pid kp ki kd awu = pid := by
  obtain ⟨h1, h2, h3, h4⟩ := px4_holds_fields pid kp ki kd awu h
  subst h1 h2 h3 h4
  rfl

theorem px4_agree_varied (t1 t2 kp ki awu : Nat) (sp rate : ℚ) :
    Agree px4 (tick_of t1 t2 (store_of kp ki awu) sp rate) (tick_varied t1 t2 kp awu sp rate) := by
  unfold Agree
  rw [px4_find_attrate_p, px4_find_attrate_awu]
  exact ⟨rfl, rfl, rfl, rfl, rfl, rfl, rfl, rfl⟩

/-! ## One invocation -/

/-- C1: for every setpoint, rates vector, actuator struct and prior statics, actuator
channel 0 after the call is the result of `pid_calculate` on the persisted controller
(as it stands at line 158) with setpoint `rate_sp->roll`, measurement `rates[0]`,
third argument 0 and the `deltaT` derived in the same invocation; that call is the last
one the invocation makes, it leaves the controller state `pid_calculate` returns, and the
status returned is 0.  On initialized statics the persisted controller at line 158 is
the one the previous invocation left, after `pid_set_parameters` when the counter is
divisible by 2500. -/
theorem C1_channel0_is_pid_calculate (E : Extern F H P) (w : World H) (st : Statics H P)
    (rate_sp : vehicle_rates_setpoint_s F) (rates : Nat → F)
    (actuators : actuator_controls_s F) :
    (let r := fixedwing_att_control_rates E w st rate_sp rates actuators
     let c := E.pid_calculate (at_calculate E w st).roll_rate_controller rate_sp.roll
       (rates 0) (E.ofInt 0) (deltaT E w st)
     r.actuators.control 0 = c.2 ∧ r.statics.roll_rate_controller = c.1 ∧
       r.trace.getLast? =
         some (Call.pid_calculate rate_sp.roll (rates 0) (E.ofInt 0) (deltaT E w st)) ∧
       r.ret = 0 ∧
       (st.initialized = true → Int.tmod st.counter 2500 ≠ 0 →
         (at_calculate E w st).roll_rate_controller = st.roll_rate_controller) ∧
       (st.initialized = true → Int.tmod st.counter 2500 = 0 →
         (at_calculate E w st).roll_rate_controller =
           E.pid_set_parameters st.roll_rate_controller (E.paramToFloat st.p.attrate_p)
             (E.paramToFloat st.p.attrate_i) (E.ofInt 0)
             (E.paramToFloat st.p.attrate_awu))) := by
  intro r c
  refine ⟨?_, rfl, ?_, rfl, ?_, ?_⟩
  · simp [r, c, fixedwing_att_control_rates, at_calculate, actuator_controls_s.set]
  · simp [r, fixedwing_att_control_rates]
  · intro hi hc
    have h1 : first_call_block E w { st with last_run := u64 w.now2 } =
        ({ st with last_run := u64 w.now2 }, []) :=
      first_call_block_of_initialized E _ _ hi
    have h2 : cadence_block E w { st with last_run := u64 w.now2 } =
        ({ st with last_run := u64 w.now2 }, []) :=
      cadence_block_skip E _ _ hc
    simp [at_calculate, h1, h2]
  · intro hi hc
    exact at_calculate_cadence E w st hi hc

/-- C2 (P7): for every input and every prior statics, after the call actuator channels 1
and 2 hold the `float` 0, and every channel with index 3 or above holds the value it
held before the call. -/
theorem C2_fixed_output_channels (E : Extern F H P) (w : World H) (st : Statics H P)
    (rate_sp : vehicle_rates_setpoint_s F) (rates : Nat → F)
    (actuators : actuator_controls_s F) :
    (let r := fixedwing_att_control_rates E w st rate_sp rates actuators
     r.actuators.control 1 = E.ofInt 0 ∧ r.actuators.control 2 = E.ofInt 0 ∧
       ∀ i, 3 ≤ i → r.actuators.control i = actuators.control i) := by
  refine ⟨by simp [fixedwing_att_control_rates, actuator_controls_s.set],
    by simp [fixedwing_att_control_rates, actuator_controls_s.set], ?_⟩
  intro i hi
  have h0 : i ≠ 0 := by omega
  have h1 : i ≠ 1 := by omega
  have h2 : i ≠ 2 := by omega
  simp [fixedwing_att_control_rates, actuator_controls_s.set, h0, h1, h2]

/-! ## Cadence and first-call initialization -/

/-- C3 (P2): let `n` be below the overflow point of the `int` counter.  The `n`-th
invocation (counted from 0) finds `counter = n`, and it performs a parameter refresh
(a `parameters_update` and a `pid_set_parameters`) if and only if `n mod 2500 = 0`; in
every other invocation `p` is unchanged and the only call made is `pid_calculate` on the
persisted controller (no `pid_init`, no `pid_set_parameters`). -/
theorem C3_refresh_cadence (E : Extern F H P) (xs : List (Tick F H)) (x : Tick F H)
    (hn : xs.length < 2 ^ 31) :
    (let st := run_statics E (Statics.initial E) xs
     let r := step E st x
     st.counter = xs.length ∧
       ((Call.parameters_update ∈ r.trace ∧
           ∃ kp ki kd awu, Call.pid_set_parameters kp ki kd awu ∈ r.trace) ↔
         xs.length % 2500 = 0) ∧
       (xs.length % 2500 ≠ 0 →
         r.statics.p = st.p ∧
         r.trace = [Call.pid_calculate x.rate_sp.roll (x.rates 0) (E.ofInt 0)
           (deltaT E x.world st)] ∧
         r.statics.roll_rate_controller =
           (E.pid_calculate st.roll_rate_controller x.rate_sp.roll (x.rates 0) (E.ofInt 0)
             (deltaT E x.world st)).1)) := by
  intro st r
  have hcnt : st.counter = xs.length := by
    have := run_statics_counter E xs (Statics.initial E) (by simp [Statics.initial])
      (by simp only [Statics.initial]; omega)
    simpa [Statics.initial] using this
  have hmod : Int.tmod st.counter 2500 = ((xs.length % 2500 : Nat) : Int) := by
    rw [hcnt]; exact (Int.ofNat_tmod xs.length 2500).symm
  have hquiet : xs.length % 2500 ≠ 0 →
      r.trace = [Call.pid_calculate x.rate_sp.roll (x.rates 0) (E.ofInt 0)
          (deltaT E x.world st)] ∧ r.statics.p = st.p ∧ r.statics.h = st.h ∧
        r.statics.roll_rate_controller =
          (E.pid_calculate st.roll_rate_controller x.rate_sp.roll (x.rates 0) (E.ofInt 0)
            (deltaT E x.world st)).1 := by
    intro hne
    have hi : st.initialized = true := by
      cases xs with
      | nil => simp at hne
      | cons y ys => exact run_statics_cons_initialized E _ y ys
    have hc : Int.tmod st.counter 2500 ≠ 0 := by
      rw [hmod]; exact_mod_cast hne
    exact step_quiet E st x hi hc
  refine ⟨hcnt, ⟨?_, ?_⟩, ?_⟩
  · rintro ⟨hu, -⟩
    by_contra hne
    rw [(hquiet hne).1] at hu
    simp at hu
  · intro h0
    have hc : Int.tmod st.counter 2500 = 0 := by
      rw [hmod, h0]; rfl
    have ht : r.trace =
        (first_call_block E x.world { st with last_run := u64 x.world.now2 }).2 ++
          (cadence_block E x.world
            (first_call_block E x.world { st with last_run := u64 x.world.now2 }).1).2 ++
          [Call.pid_calculate x.rate_sp.roll (x.rates 0) (E.ofInt 0)
            (deltaT E x.world st)] := rfl
    have hc2 : Int.tmod
        (first_call_block E x.world { st with last_run := u64 x.world.now2 }).1.counter
        2500 = 0 := by
      rw [first_call_block_counter]; exact hc
    rw [ht]
    simp only [cadence_block, hc2, if_true]
    exact ⟨by simp, _, _, _, _,
      List.mem_append_left _ (List.mem_append_right _ (List.mem_cons_self _ _))⟩
  · intro hne
    exact ⟨(hquiet hne).2.1, (hquiet hne).1, (hquiet hne).2.2.2⟩

/-- C3 at a concrete input: the invocation after the first one (`n = 1`) on `px4`. -/
theorem C3_refresh_cadence_witness :
    (let xs := [tick_of 10 11 (store_of 1 2 3) 1 0]
     let x := tick_of 20 21 (store_of 4 5 6) 1 0
     xs.length < 2 ^ 31 ∧
       (step px4 (run_statics px4 (Statics.initial px4) xs) x).statics.p =
         (run_statics px4 (Statics.initial px4) xs).p) :=
  ⟨by decide,
   ((C3_refresh_cadence px4 [tick_of 10 11 (store_of 1 2 3) 1 0]
      (tick_of 20 21 (store_of 4 5 6) 1 0) (by decide)).2.2 (by decide)).1⟩

/-- C5 (P1), as amended: the first invocation (from the initial statics) makes exactly
these calls, in order: `parameters_init` once, `parameters_update`, `pid_init` once with
derivative gain 0 whatever the store holds, `pid_set_parameters`, `parameters_update` a
second time (the cadence block, which `counter = 0` also enters), `pid_calculate`; no
later invocation calls `parameters_init` or `pid_init`. -/
theorem C5_first_invocation (E : Extern F H P) (x y z : Tick F H) (ys : List (Tick F H)) :
    (let r := step E (Statics.initial E) x
     let later := step E (run_statics E (Statics.initial E) (y :: ys)) z
     (∃ kp ki awu,
         r.trace =
           [Call.parameters_init, Call.parameters_update,
            Call.pid_init kp ki (E.ofInt 0) awu E.PID_MODE_DERIVATIV_SET,
            Call.pid_set_parameters kp ki (E.ofInt 0) awu,
            Call.parameters_update,
            Call.pid_calculate x.rate_sp.roll (x.rates 0) (E.ofInt 0)
              (deltaT E x.world (Statics.initial E))]) ∧
       Call.parameters_init ∉ later.trace ∧
       ∀ kp ki kd awu mode, Call.pid_init kp ki kd awu mode ∉ later.trace) := by
  intro r later
  refine ⟨⟨_, _, _, first_step_trace E x⟩, ?_⟩
  have hi : (run_statics E (Statics.initial E) (y :: ys)).initialized = true :=
    run_statics_cons_initialized E _ y ys
  by_cases hc : Int.tmod (run_statics E (Statics.initial E) (y :: ys)).counter 2500 = 0
  · have ht := (step_cadence E _ z hi hc).1
    constructor
    · show Call.parameters_init ∉ (step E _ z).trace
      rw [ht]; simp
    · intro kp ki kd awu mode
      show Call.pid_init kp ki kd awu mode ∉ (step E _ z).trace
      rw [ht]; simp
  · have ht := (step_quiet E _ z hi hc).1
    constructor
    · show Call.parameters_init ∉ (step E _ z).trace
      rw [ht]; simp
    · intro kp ki kd awu mode
      show Call.pid_init kp ki kd awu mode ∉ (step E _ z).trace
      rw [ht]; simp

/-- C5 as stated fails: on the first invocation `parameters_update` runs twice, not once
(here on `px4`, with a store holding words 1, 2, 3). -/
theorem C5_first_invocation_loads_twice :
    (step px4 (Statics.initial px4) (tick_of 0 0 (store_of 1 2 3) 0 0)).trace.count
      Call.parameters_update = 2 := by
  rw [first_step_trace]
  simp [List.count_cons]

/-! ## Timing -/

/-- C7 (P5), as amended: for two consecutive invocations under a clock that does not
decrease between the reading `t1` the first invocation records in `last_run` and the
first reading `a2` of the second invocation, the elapsed time the second invocation hands
to the control law has microsecond numerator `a2 - t1`: `a2` is the reading taken inside
the `deltaT` expression, not the later reading `t2` that the second invocation records
in `last_run`.  The numerator is `t2 - t1` when the clock does not advance between the
second invocation's two readings. -/
theorem C7_elapsed_between_invocations (E : Extern F H P) (st : Statics H P)
    (x1 x2 : Tick F H) (h1 : x1.world.now2 < 2 ^ 64) (h2 : x2.world.now1 < 2 ^ 64)
    (hmono : x1.world.now2 ≤ x2.world.now1) :
    (let s1 := (step E st x1).statics
     let r2 := step E s1 x2
     s1.last_run = x1.world.now2 ∧
       elapsed_us x2.world s1 = x2.world.now1 - x1.world.now2 ∧
       r2.trace.getLast? =
         some (Call.pid_calculate x2.rate_sp.roll (x2.rates 0) (E.ofInt 0)
           (E.fdiv (E.ofU64 (x2.world.now1 - x1.world.now2)) E.lit_1000000f)) ∧
       (x2.world.now2 = x2.world.now1 →
         elapsed_us x2.world s1 = r2.statics.last_run - s1.last_run)) := by
  intro s1 r2
  have hl1 : s1.last_run = x1.world.now2 := by
    show (step E st x1).statics.last_run = _
    rw [step_last_run]; unfold u64; omega
  have he : elapsed_us x2.world s1 = x2.world.now1 - x1.world.now2 := by
    unfold elapsed_us u64_sub u64
    rw [hl1]; omega
  refine ⟨hl1, he, ?_, ?_⟩
  · show (step E s1 x2).trace.getLast? = _
    rw [step_trace_getLast]
    unfold deltaT
    rw [he]
  · intro heq
    have hl2 : r2.statics.last_run = x2.world.now1 := by
      show (step E s1 x2).statics.last_run = _
      rw [step_last_run, heq]; unfold u64; omega
    rw [he, hl2, hl1]

/-- C7 at a concrete input: readings 100, 105 in the first invocation and 200, 207 in
the second give the numerator 200 - 105. -/
theorem C7_elapsed_between_invocations_witness :
    (105 : Nat) < 2 ^ 64 ∧ (200 : Nat) < 2 ^ 64 ∧ (105 : Nat) ≤ 200 ∧
      elapsed_us (tick_of 200 207 (store_of 1 2 3) 0 0).world
        (step px4 (Statics.initial px4) (tick_of 100 105 (store_of 1 2 3) 0 0)).statics =
      200 - 105 :=
  ⟨by decide, by decide, by decide,
   (C7_elapsed_between_invocations px4 (Statics.initial px4)
      (tick_of 100 105 (store_of 1 2 3) 0 0) (tick_of 200 207 (store_of 1 2 3) 0 0)
      (by decide) (by decide) (by decide)).2.1⟩

/-- C7 as stated fails under a clock that advances between the two readings of one
invocation: with readings 100, 105 and then 200, 207 the timestamps recorded in
`last_run` are `t1 = 105` and `t2 = 207`, so `t2 - t1 = 102`, while the numerator handed
on is 95. -/
theorem C7_numerator_is_not_t2_minus_t1 :
    (let x1 := tick_of 100 105 (store_of 1 2 3) 0 0
     let x2 := tick_of 200 207 (store_of 1 2 3) 0 0
     let s1 := (step px4 (Statics.initial px4) x1).statics
     let s2 := (step px4 s1 x2).statics
     s1.last_run = 105 ∧ s2.last_run = 207 ∧ s2.last_run - s1.last_run = 102 ∧
       elapsed_us x2.world s1 = 95) := by
  intro x1 x2 s1 s2
  have hl1 : s1.last_run = 105 := by
    show (step px4 _ x1).statics.last_run = _
    rw [step_last_run]; rfl
  have hl2 : s2.last_run = 207 := by
    show (step px4 _ x2).statics.last_run = _
    rw [step_last_run]; rfl
  refine ⟨hl1, hl2, by rw [hl1, hl2], ?_⟩
  unfold elapsed_us
  rw [hl1]
  show u64_sub (u64 200) 105 = 95
  norm_num [u64_sub, u64]

/-! ## Gain updates -/

/-- C8 (P4): in every invocation after the first that hits the refresh cadence, whatever
the controller's accumulated integral term, the calls made are `pid_set_parameters`,
`parameters_update`, `pid_calculate` (no `pid_init`), and the controller `pid_calculate`
is evaluated on is the persisted one after `pid_set_parameters` only; so, given the
interface contract that `pid_set_parameters` leaves the accumulated integral (any
projection `integral` of the state it preserves) alone, the value entering
`pid_calculate` is the one the previous invocation left. -/
theorem C8_no_integrator_reset (E : Extern F H P) (integral : P → F)
    (hcontract : ∀ s kp ki kd awu, integral (E.pid_set_parameters s kp ki kd awu) = integral s)
    (w : World H) (st : Statics H P) (rate_sp : vehicle_rates_setpoint_s F)
    (rates : Nat → F) (actuators : actuator_controls_s F)
    (hinit : st.initialized = true) (hcad : Int.tmod st.counter 2500 = 0) :
    (let r := fixedwing_att_control_rates E w st rate_sp rates actuators
     r.trace =
         [Call.pid_set_parameters (E.paramToFloat st.p.attrate_p)
            (E.paramToFloat st.p.attrate_i) (E.ofInt 0) (E.paramToFloat st.p.attrate_awu),
          Call.parameters_update,
          Call.pid_calculate rate_sp.roll (rates 0) (E.ofInt 0) (deltaT E w st)] ∧
       (at_calculate E w st).roll_rate_controller =
         E.pid_set_parameters st.roll_rate_controller (E.paramToFloat st.p.attrate_p)
           (E.paramToFloat st.p.attrate_i) (E.ofInt 0) (E.paramToFloat st.p.attrate_awu) ∧
       integral (at_calculate E w st).roll_rate_controller =
         integral st.roll_rate_controller) := by
  intro r
  have h1 : first_call_block E w { st with last_run := u64 w.now2 } =
      ({ st with last_run := u64 w.now2 }, []) :=
    first_call_block_of_initialized E _ _ hinit
  have ha := at_calculate_cadence E w st hinit hcad
  refine ⟨?_, ha, ?_⟩
  · simp [r, fixedwing_att_control_rates, h1, cadence_block, hcad]
  · rw [ha, hcontract]

/-- C8 at a concrete input: `px4` at `counter = 2500` with accumulated integral 3/10. -/
theorem C8_no_integrator_reset_witness :
    cadence_statics.initialized = true ∧ Int.tmod cadence_statics.counter 2500 = 0 ∧
      cadence_statics.roll_rate_controller.integral = 3 / 10 ∧
      (at_calculate px4 (tick_of 0 0 (store_of 1 2 3) 0 0).world
        cadence_statics).roll_rate_controller.integral = 3 / 10 :=
  ⟨rfl, by decide, rfl,
   (C8_no_integrator_reset px4 PID_t.integral (fun _ _ _ _ _ => rfl)
      (tick_of 0 0 (store_of 1 2 3) 0 0).world cadence_statics
      (tick_of 0 0 (store_of 1 2 3) 0 0).rate_sp (tick_of 0 0 (store_of 1 2 3) 0 0).rates
      (tick_of 0 0 (store_of 1 2 3) 0 0).actuators rfl (by decide)).2.2⟩

/-- C6 on `px4`: a run of 2501 invocations in which the store holds for `MC_ATTRATE_P`
the word 1061997773 (the bits of `0.8f`) during invocations 0 to 2499 and the word
1065353216 (the bits of `1.0f`) at invocation 2500.  Invocation 2500 hits the cadence;
its first call is `pid_set_parameters` with the old word's gain, the re-read comes after
it, and `pid_calculate` runs on a controller whose P gain is still the old one although
`p` now holds the new word.  (The gains appear as the words' values because the members
of `p` have the type `param_t`; the order of the two calls does not depend on that.) -/
theorem C6_gain_push_precedes_reread :
    (let old := tick_of 0 0 (store_of 1061997773 0 1050253722) 0 0
     let new := tick_of 0 0 (store_of 1065353216 0 1050253722) 0 0
     let st := run_statics px4 (Statics.initial px4) (List.replicate 2500 old)
     let r := step px4 st new
     st.counter = 2500 ∧
       r.trace.head? = some (Call.pid_set_parameters 1061997773 0 0 1050253722) ∧
       r.trace.get? 1 = some Call.parameters_update ∧
       r.statics.p.attrate_p = 1065353216 ∧
       (at_calculate px4 new.world st).roll_rate_controller.kp = 1061997773) := by
  intro old new st r
  have hst : st = run_statics px4 (step px4 (Statics.initial px4) old).statics
      (List.replicate 2499 old) := by
    have e : List.replicate 2500 old = old :: List.replicate 2499 old :=
      List.replicate_succ old 2499
    show run_statics px4 _ (List.replicate 2500 old) = _
    rw [e, run_statics]
  have h1 := first_step_statics px4 old
  have hi1 := step_initialized px4 (Statics.initial px4) old
  have hlen : (List.replicate 2499 old).length = 2499 := List.length_replicate _ _
  have hcnt : st.counter = 2500 := by
    rw [hst, run_statics_counter px4 _ _ (by rw [h1.2.2]; decide)
      (by rw [h1.2.2, hlen]; decide), h1.2.2, hlen]
    rfl
  have hq := run_statics_quiet px4 (List.replicate 2499 old) _ hi1 (by rw [h1.2.2]; decide)
    (by rw [h1.2.2, hlen]; decide)
    (by
      intro j hj
      rw [hlen] at hj
      rw [h1.2.2, Int.tmod_eq_emod (by omega) (by decide)]
      omega)
  have hi : st.initialized = true := by
    rw [hst]; exact run_statics_initialized px4 _ _ hi1
  have hc : Int.tmod st.counter 2500 = 0 := by rw [hcnt]; decide
  have hp : st.p.attrate_p = 1061997773 ∧ st.p.attrate_i = 0 ∧
      st.p.attrate_awu = 1050253722 := by
    rw [hst, hq.1, h1.1]
    refine ⟨?_, ?_, ?_⟩
    · rw [parameters_update_attrate_p, parameters_update_attrate_p,
        parameters_init_attrate_p, px4_find_attrate_p]
      simp [param_get, old, tick_of, store_of]
    · rw [parameters_update_attrate_i]; exact px4_floatToParam_lit
    · rw [parameters_update_attrate_awu, parameters_update_attrate_awu,
        parameters_init_attrate_awu, px4_find_attrate_awu]
      simp [param_get, old, tick_of, store_of]
  have hh : st.h.attrate_p = 5 := by
    rw [hst, hq.2, h1.2.1]
    exact px4_find_attrate_p
  have hs := step_cadence px4 st new hi hc
  refine ⟨hcnt, ?_, ?_, ?_, ?_⟩
  · show (step px4 st new).trace.head? = _
    rw [hs.1, hp.1, hp.2.1, hp.2.2]
    simp [px4]
  · show (step px4 st new).trace.get? 1 = _
    rw [hs.1]; simp
  · show (step px4 st new).statics.p.attrate_p = _
    rw [hs.2.1, parameters_update_attrate_p, hh]
    simp [param_get, new, tick_of, store_of]
  · rw [at_calculate_cadence px4 _ _ hi hc, hp.1]
    simp [px4]

/-- C4 on `px4`: the member `attrate_i` of `p` has the handle type `param_t`, an unsigned
machine word, so the assignment of `0.01f` leaves the word 0 in it, and the integral gain
handed to `pid_init` by the first invocation is 0, not 0.01 (the store here holds the
bits of `0.8f`, `0.2f`, `0.3f` for `MC_ATTRATE_P`, `_I`, `_AWU`). -/
theorem C4_integral_gain_handed_over_is_zero :
    (let s := store_of 1061997773 1045220557 1050253722
     let p := (parameters_update px4 s (parameters_init px4).2 (Statics.initial px4).p).2
     p.attrate_i = 0 ∧ px4.paramToFloat p.attrate_i = 0 ∧ px4.lit_0_01f = 1 / 100 ∧
       (step px4 (Statics.initial px4) (tick_of 0 0 s 0 0)).trace.get? 2 =
         some (Call.pid_init 1061997773 0 0 1050253722 1)) := by
  intro s p
  have hi : p.attrate_i = 0 := by
    show (parameters_update px4 s _ _).2.attrate_i = 0
    rw [parameters_update_attrate_i]; exact px4_floatToParam_lit
  refine ⟨hi, by rw [hi]; simp [px4], rfl, ?_⟩
  rw [first_step_trace, px4_floatToParam_lit, px4_find_attrate_p, px4_find_attrate_awu]
  simp [px4, tick_of, store_of, param_get, s]

/-! ## Refresh as a no-op, and noninterference -/

/-- C9: under a store that returns the same value for each handle on every read, for
every clock and every input sequence of any length, the source's run from the initial
statics and the reference run (first-call binding, load and initialization, but no
cadence block) produce the same sequence of channel-0 outputs, assuming
`pid_set_parameters` called with the gains a controller already holds leaves the
controller unchanged. -/
theorem C9_refresh_is_noop (E : Extern F H P) (s : Store H) (xs : List (Tick F H))
    (hstore : ∀ x ∈ xs, x.world.store1 = s ∧ x.world.store2 = s)
    (hnoop : ∀ pid kp ki kd awu, Holds E pid kp ki kd awu →
      E.pid_set_parameters pid kp ki kd awu = pid) :
    channel0 (run E (Statics.initial E) xs) =
      channel0 (reference_run E (Statics.initial E) xs) :=
  sim_run E s hnoop xs _ _ (sim_initial E s) hstore

/-- C9 at a concrete input: 2501 invocations on `px4`, so that invocation 2500 is a
later cadence hit. -/
theorem C9_refresh_is_noop_witness :
    steady_ticks.length = 2501 ∧
      channel0 (run px4 (Statics.initial px4) steady_ticks) =
        channel0 (reference_run px4 (Statics.initial px4) steady_ticks) :=
  ⟨by simp [steady_ticks],
   C9_refresh_is_noop px4 (store_of 1061997773 1045220557 1050253722) steady_ticks
     (by
       intro x hx
       obtain ⟨i, -, rfl⟩ := List.mem_map.mp hx
       exact ⟨rfl, rfl⟩)
     px4_set_parameters_noop⟩

/-- C10: two runs from the initial statics, of any common length, whose ticks agree
pairwise on the clock readings, on `rate_sp->roll`, on `rates[0]` and on what the store
yields for `MC_ATTRATE_P` and `MC_ATTRATE_AWU` at every read, make the same sequence of
control-law calls (`pid_init`, `pid_set_parameters`, `pid_calculate`, with arguments) and
produce the same channel-0 outputs, however they differ in the other store values, in
`rates[1]`, `rates[2]` and in the other setpoint members. -/
theorem C10_noninterference (E : Extern F H P) (xs ys : List (Tick F H))
    (h : List.Forall₂ (Agree E) xs ys) :
    pid_calls (run E (Statics.initial E) xs) = pid_calls (run E (Statics.initial E) ys) ∧
      channel0 (run E (Statics.initial E) xs) = channel0 (run E (Statics.initial E) ys) :=
  alike_run E xs ys h _ _ (alike_initial E)

/-- C10 at a concrete input: two runs of two invocations on `px4` that differ in the
store's `MC_ATTRATE_I`, `MC_ATTRATE_D`, `MC_ATTRATE_LIM` and yaw-rate values, in the
measured pitch and yaw rates and in the other setpoint members. -/
theorem C10_noninterference_witness :
    channel0 (run px4 (Statics.initial px4)
        [tick_of 100 105 (store_of 1061997773 1045220557 1050253722) (1 / 2) 0,
         tick_of 20100 20105 (store_of 1065353216 0 1050253722) (1 / 2) (1 / 10)]) =
      channel0 (run px4 (Statics.initial px4)
        [tick_varied 100 105 1061997773 1050253722 (1 / 2) 0,
         tick_varied 20100 20105 1065353216 1050253722 (1 / 2) (1 / 10)]) :=
  (C10_noninterference px4 _ _
    (List.Forall₂.cons (px4_agree_varied 100 105 1061997773 1045220557 1050253722 (1 / 2) 0)
      (List.Forall₂.cons (px4_agree_varied 20100 20105 1065353216 0 1050253722 (1 / 2) (1 / 10))
        List.Forall₂.nil))).2

end FixedwingRate
